import Mathlib

/-!
# Verification of the Cycles denoising prefilter kernels and the
# point-cache CustomData reader

Shallow embedding of `intern/cycles/kernel/filter/filter_prefilter.h`
(`kernel_filter_divide_shadow`, `kernel_filter_get_feature`,
`kernel_filter_combine_halves`) and of the per-layer sample readers of
`source/blender/pointcache/alembic/abc_customdata.cpp`.

Floats are modelled as exact rationals (`ℚ`).  The float literals `0.5f`
and `0.25f` are exactly `1/2` and `1/4`; the epsilon `1e-7f` is modelled
as the exact rational `1/10000000`.  Division by zero follows the Lean
convention `q / 0 = 0`.  C `int` is modelled as `ℤ` with C99 truncated
division (`Int.tdiv`).  Buffers are total functions `ℤ → ℚ`; a write is
`Function.update`.
-/

/-- `int4` as used for the prefilter rectangle: `x`,`y` lower bounds
(inclusive), `z`,`w` upper bounds (exclusive). -/
structure Int4 where
  x : Int
  y : Int
  z : Int
  w : Int

/-- Modelled from the spec: `TilesInfo` (defined outside the two provided
source files) holds, per axis, the tile split boundaries `x[0..3]`/`y[0..3]`,
and per tile (9, row-major) a flat offset, a row stride and a buffer. -/
structure TilesInfo where
  x : Int → Int
  y : Int → Int
  offsets : Int → Int
  strides : Int → Int
  buffers : Int → Int → ℚ

/-- Modelled from the spec: `align_up` (defined outside the two provided
source files) rounds a width up to the next multiple of `alignment`
("the rectangle width rounded up to a 4-element alignment boundary");
`Int.tdiv` matches the C arithmetic for the non-negative widths it is
applied to. -/
def align_up (offset alignment : Int) : Int :=
  ((offset + alignment - 1).tdiv alignment) * alignment

/-- `int odd_sample = (sample+1)/2;` (C truncated division). -/
def odd_sample (sample : Int) : Int := (sample + 1).tdiv 2

/-- `int even_sample = sample/2;` (C truncated division). -/
def even_sample (sample : Int) : Int := sample.tdiv 2

/-- Resolves the owning tile `ytile*3 + xtile` of pixel `(x,y)` by the
three-way split comparisons of the source. -/
def tile_of (tiles : TilesInfo) (x y : Int) : Int :=
  let xtile : Int := if x < tiles.x 1 then 0 else if x < tiles.x 2 then 1 else 2
  let ytile : Int := if y < tiles.y 1 then 0 else if y < tiles.y 2 then 1 else 2
  ytile * 3 + xtile

/-- Rectangle-space width `align_up(rect.z - rect.x, 4)`. -/
def buffer_w (rect : Int4) : Int := align_up (rect.z - rect.x) 4

/-- Rectangle-space index `(y-rect.y)*buffer_w + (x-rect.x)`. -/
def rect_idx (rect : Int4) (x y : Int) : Int :=
  (y - rect.y) * buffer_w rect + (x - rect.x)

/-- Result of `kernel_filter_divide_shadow`: the five output arrays after
the write, together with the (never written) input tile buffers. -/
structure DivideShadowOut where
  unfilteredA : Int → ℚ
  unfilteredB : Int → ℚ
  sampleVariance : Int → ℚ
  sampleVarianceV : Int → ℚ
  bufferVariance : Int → ℚ
  tiles : TilesInfo

/-- `kernel_filter_divide_shadow` of `filter_prefilter.h`. -/
def kernel_filter_divide_shadow (sample : Int) (tiles : TilesInfo) (x y : Int)
    (unfilteredA unfilteredB sampleVariance sampleVarianceV bufferVariance : Int → ℚ)
    (rect : Int4) (buffer_pass_stride buffer_denoising_offset : Int)
    (use_split_variance : Bool) : DivideShadowOut :=
  let tile := tile_of tiles x y
  let offset := tiles.offsets tile
  let stride := tiles.strides tile
  let center_buffer : Int → ℚ := fun i =>
    tiles.buffers tile ((y * stride + x + offset) * buffer_pass_stride +
      buffer_denoising_offset + 14 + i)
  let idx := rect_idx rect x y
  let uA := center_buffer 1 / max (center_buffer 0) (1/10000000)
  let uB := center_buffer 4 / max (center_buffer 3) (1/10000000)
  let varA1 := if use_split_variance then
      max 0 (center_buffer 2 - uA * uA * ((odd_sample sample : Int) : ℚ))
    else center_buffer 2
  let varB1 := if use_split_variance then
      max 0 (center_buffer 5 - uB * uB * ((even_sample sample : Int) : ℚ))
    else center_buffer 5
  let varA := varA1 / ((odd_sample sample - 1 : Int) : ℚ)
  let varB := varB1 / ((even_sample sample - 1 : Int) : ℚ)
  { unfilteredA := Function.update unfilteredA idx uA
    unfilteredB := Function.update unfilteredB idx uB
    sampleVariance := Function.update sampleVariance idx
      ((1/2 : ℚ) * (varA + varB) / (sample : ℚ))
    sampleVarianceV := Function.update sampleVarianceV idx
      ((1/2 : ℚ) * (varA - varB) * (varA - varB) / ((sample * sample : Int) : ℚ))
    bufferVariance := Function.update bufferVariance idx
      ((1/2 : ℚ) * (uA - uB) * (uA - uB))
    tiles := tiles }

/-- Result of `kernel_filter_get_feature`. -/
structure GetFeatureOut where
  mean : Int → ℚ
  variance : Int → ℚ

/-- `kernel_filter_get_feature` of `filter_prefilter.h`. -/
def kernel_filter_get_feature (sample : Int) (tiles : TilesInfo)
    (m_offset v_offset : Int) (x y : Int) (mean variance : Int → ℚ)
    (rect : Int4) (buffer_pass_stride buffer_denoising_offset : Int)
    (use_split_variance : Bool) : GetFeatureOut :=
  let tile := tile_of tiles x y
  let center_buffer : Int → ℚ := fun i =>
    tiles.buffers tile ((tiles.offsets tile + y * tiles.strides tile + x) *
      buffer_pass_stride + buffer_denoising_offset + i)
  let idx := rect_idx rect x y
  let m := center_buffer m_offset / (sample : ℚ)
  { mean := Function.update mean idx m
    variance := Function.update variance idx
      (if use_split_variance then
        max 0 ((center_buffer v_offset - m * m * (sample : ℚ)) /
          ((sample * (sample - 1) : Int) : ℚ))
      else
        center_buffer v_offset / ((sample * (sample - 1) : Int) : ℚ)) }

/-- The integer interval `[lo, hi)` as an ascending list, empty when
`hi ≤ lo`; models a C `for` loop from `lo` (inclusive) to `hi` (exclusive). -/
def intRange (lo hi : Int) : List Int :=
  (List.range (hi - lo).toNat).map (fun (i : Nat) => lo + (i : Int))

/-- The `values` gathered by the windowed branch of
`kernel_filter_combine_halves`: `0.25*(a[pidx]-b[pidx])^2` for every pixel
of the window `[x-r, x+r] × [y-r, y+r]` clipped to `rect`, in loop order. -/
def combineGather (a b : Int → ℚ) (rect : Int4) (x y r : Int) : List ℚ :=
  (intRange (max (y - r) rect.y) (min (y + r + 1) rect.w)).flatMap (fun py =>
    (intRange (max (x - r) rect.x) (min (x + r + 1) rect.z)).map (fun px =>
      (1/4 : ℚ) * (a (rect_idx rect px py) - b (rect_idx rect px py)) *
        (a (rect_idx rect px py) - b (rect_idx rect px py))))

/-- The rank picked by the source's selection `values[(7*numValues)/8]`. -/
def rank_index (numValues : Nat) : Nat := (7 * numValues) / 8

/-- Result of `kernel_filter_combine_halves`; the nullable `mean` /
`variance` output pointers are modelled as `Option`s. -/
structure CombineHalvesOut where
  mean : Option (Int → ℚ)
  variance : Option (Int → ℚ)

/-- `kernel_filter_combine_halves` of `filter_prefilter.h`.  The in-place
ascending insertion sort of `values` is modelled by `List.insertionSort`;
the selected element is read with `getD` (an empty window, which cannot
occur for a pixel inside `rect`, yields the default `0` in place of the
source's uninitialized stack read). -/
def kernel_filter_combine_halves (x y : Int) (mean variance : Option (Int → ℚ))
    (a b : Int → ℚ) (rect : Int4) (r : Int) : CombineHalvesOut :=
  let idx := rect_idx rect x y
  { mean := mean.map (fun m => Function.update m idx ((1/2 : ℚ) * (a idx + b idx)))
    variance := variance.map (fun v =>
      if r = 0 then
        Function.update v idx ((1/4 : ℚ) * (a idx - b idx) * (a idx - b idx))
      else
        let values := combineGather a b rect x y r
        Function.update v idx
          ((List.insertionSort (· ≤ ·) values).getD (rank_index values.length) 0)) }

/-- `PTCReadSampleResult` restricted to the two values used by
`abc_customdata.cpp`. -/
inductive PTCReadSampleResult where
  | PTC_READ_SAMPLE_INVALID
  | PTC_READ_SAMPLE_EXACT
deriving DecidableEq

/-- An RGBA float color (`C4f` on the Alembic side, `MCol` on the mesh
side). -/
structure C4f where
  r : ℚ
  g : ℚ
  b : ℚ
  a : ℚ
deriving DecidableEq

/-- The array samples found in the property store for one CustomData
layer, one constructor per specialized `read_sample<CDTYPE>` of
`abc_customdata.cpp`. -/
inductive LayerSample where
  | mdeformvert (totweight flag def_nr : List Int) (weight : List ℚ)
  | mcol (cols : List C4f)
  | origindex (indices : List Int)
  | origspace (uv0 uv1 uv2 uv3 : List (ℚ × ℚ))
deriving DecidableEq

/-- The size-mismatch test each specialized `read_sample<CDTYPE>` performs
against the requested `num_data` before copying any data. -/
def layer_size_mismatch (layer : LayerSample) (num_data : Nat) : Bool :=
  match layer with
  | .mdeformvert totweight flag _ _ =>
      totweight.length ≠ num_data || flag.length ≠ num_data
  | .mcol cols => cols.length ≠ num_data
  | .origindex indices => indices.length ≠ num_data
  | .origspace uv0 uv1 uv2 uv3 =>
      uv0.length ≠ num_data || uv1.length ≠ num_data ||
      uv2.length ≠ num_data || uv3.length ≠ num_data

/-- The result returned by the specialized `read_sample<CDTYPE>` reached
through the `read_sample_call` dispatch chain: `PTC_READ_SAMPLE_INVALID` on
an element-count mismatch, else `PTC_READ_SAMPLE_EXACT` (the data copy the
success path performs does not influence the returned result and is not
modelled). -/
def read_sample_layer (layer : LayerSample) (num_data : Nat) : PTCReadSampleResult :=
  if layer_size_mismatch layer num_data then
    PTCReadSampleResult.PTC_READ_SAMPLE_INVALID
  else
    PTCReadSampleResult.PTC_READ_SAMPLE_EXACT

/-- `CustomDataReader::read_sample` of `abc_customdata.cpp`: the loop body
invokes `read_sample_call<0>(...)` for every stored layer but discards the
returned `PTCReadSampleResult`, and the function ends with an unconditional
`return PTC_READ_SAMPLE_EXACT;`. -/
def CustomDataReader.read_sample (layers : List LayerSample) (num_data : Nat) :
    PTCReadSampleResult :=
  let _ := layers.map (fun layer => read_sample_layer layer num_data)
  PTCReadSampleResult.PTC_READ_SAMPLE_EXACT

/-! ## Claim-side formulas for the Shadow Divider (C1)

These definitions follow the words of the spec and of claim C1, to be
compared with `kernel_filter_divide_shadow` as translated from the
source. -/

/-- Claim side: `oddSample = ceil(sample/2)`. -/
def specOddSample (sample : Int) : Int := ⌈(sample : ℚ) / 2⌉

/-- Claim side: `evenSample = floor(sample/2)`. -/
def specEvenSample (sample : Int) : Int := ⌊(sample : ℚ) / 2⌋

/-- Claim side: `unfilteredA = record[1] / max(record[0], 1e-7)`. -/
def specUnfilteredA (record : Int → ℚ) : ℚ := record 1 / max (record 0) (1/10000000)

/-- Claim side: `unfilteredB = record[4] / max(record[3], 1e-7)`. -/
def specUnfilteredB (record : Int → ℚ) : ℚ := record 4 / max (record 3) (1/10000000)

/-- Claim side: `varA`, i.e. `record[2]` (split flag off) or
`max(0, record[2] - unfilteredA^2*oddSample)` (split flag on), divided by
`(oddSample - 1)`. -/
def specVarA (record : Int → ℚ) (sample : Int) (split : Bool) : ℚ :=
  (if split then
    max 0 (record 2 - specUnfilteredA record ^ 2 * ((specOddSample sample : Int) : ℚ))
  else record 2) / ((specOddSample sample - 1 : Int) : ℚ)

/-- Claim side: `varB`, i.e. `record[5]` (split flag off) or
`max(0, record[5] - unfilteredB^2*evenSample)` (split flag on), divided by
`(evenSample - 1)`. -/
def specVarB (record : Int → ℚ) (sample : Int) (split : Bool) : ℚ :=
  (if split then
    max 0 (record 5 - specUnfilteredB record ^ 2 * ((specEvenSample sample : Int) : ℚ))
  else record 5) / ((specEvenSample sample - 1 : Int) : ℚ)

/-- Claim side: `sampleVariance = 0.5*(varA+varB)/sample`. -/
def specSampleVariance (record : Int → ℚ) (sample : Int) (split : Bool) : ℚ :=
  (1/2 : ℚ) * (specVarA record sample split + specVarB record sample split) / (sample : ℚ)

/-- Claim side: `sampleVarianceV = 0.5*(varA-varB)^2/sample^2`. -/
def specSampleVarianceV (record : Int → ℚ) (sample : Int) (split : Bool) : ℚ :=
  (1/2 : ℚ) * (specVarA record sample split - specVarB record sample split) ^ 2 /
    ((sample : ℚ) ^ 2)

/-- Claim side: `bufferVariance = 0.5*(unfilteredA-unfilteredB)^2`. -/
def specBufferVariance (record : Int → ℚ) : ℚ :=
  (1/2 : ℚ) * (specUnfilteredA record - specUnfilteredB record) ^ 2

/-- The per-pixel shadow record of claim C1: the owning tile's buffer
read at `base + denoising_offset + 14 + i`, with
`base = (y*stride + x + offset)*pass_stride`. -/
def shadow_record (tiles : TilesInfo) (x y buffer_pass_stride buffer_denoising_offset : Int) :
    Int → ℚ := fun i =>
  tiles.buffers (tile_of tiles x y)
    ((y * tiles.strides (tile_of tiles x y) + x + tiles.offsets (tile_of tiles x y)) *
      buffer_pass_stride + buffer_denoising_offset + 14 + i)

/-! ## Helper lemmas -/

lemma odd_sample_eq_spec (s : Int) (h : 0 ≤ s) : odd_sample s = specOddSample s := by
  unfold odd_sample specOddSample
  rw [Int.tdiv_eq_ediv (by omega) (by norm_num)]
  have h2 : (⌈(s : ℚ) / 2⌉ : Int) = -⌊-((s : ℚ) / 2)⌋ := by rw [Int.floor_neg, neg_neg]
  have h3 : -((s : ℚ) / 2) = ((-s : Int) : ℚ) / ((2 : ℕ) : ℚ) := by push_cast; ring
  rw [h2, h3, Rat.floor_intCast_div_natCast]
  have h4 : ((2 : ℕ) : ℤ) = 2 := rfl
  rw [h4]
  omega

lemma even_sample_eq_spec (s : Int) (h : 0 ≤ s) : even_sample s = specEvenSample s := by
  unfold even_sample specEvenSample
  rw [Int.tdiv_eq_ediv (by omega) (by norm_num)]
  have h3 : ((s : ℚ) / 2) = ((s : Int) : ℚ) / ((2 : ℕ) : ℚ) := by push_cast; ring
  rw [h3, Rat.floor_intCast_div_natCast]
  have h4 : ((2 : ℕ) : ℤ) = 2 := rfl
  rw [h4]

/-! ## C2 -/

/-- C2 counterexample: the claim fails at the concrete sample count 2,
which satisfies the alleged caller contract `sample ≥ 2` yet makes both
sub-sample counts of `kernel_filter_divide_shadow` equal to 1 and both
variance divisors zero. -/
theorem odd_even_sample_both_one_at_sample_two :
    (2 : Int) ≥ 2 ∧ odd_sample 2 = 1 ∧ even_sample 2 = 1 ∧
    ((odd_sample 2 - 1 : Int) : ℚ) = 0 ∧ ((even_sample 2 - 1 : Int) : ℚ) = 0 := by
  decide

/-- C2 amended: for every sample count `sample ≥ 4`, neither sub-sample
count of `kernel_filter_divide_shadow` equals 1 and the divisors
`(oddSample - 1)` and `(evenSample - 1)` are nonzero. -/
theorem divide_shadow_divisors_nonzero_of_four_le (sample : Int) (h : 4 ≤ sample) :
    odd_sample sample ≠ 1 ∧ even_sample sample ≠ 1 ∧
    ((odd_sample sample - 1 : Int) : ℚ) ≠ 0 ∧ ((even_sample sample - 1 : Int) : ℚ) ≠ 0 := by
  have ho : 2 ≤ odd_sample sample := by
    unfold odd_sample
    rw [Int.tdiv_eq_ediv (by omega) (by norm_num)]
    omega
  have he : 2 ≤ even_sample sample := by
    unfold even_sample
    rw [Int.tdiv_eq_ediv (by omega) (by norm_num)]
    omega
  exact ⟨by omega, by omega, Int.cast_ne_zero.mpr (by omega), Int.cast_ne_zero.mpr (by omega)⟩

/-- C2 amended witness at `sample = 4`. -/
theorem divide_shadow_divisors_nonzero_of_four_le_witness :
    (4 : Int) ≤ 4 ∧
    (odd_sample 4 ≠ 1 ∧ even_sample 4 ≠ 1 ∧
     ((odd_sample 4 - 1 : Int) : ℚ) ≠ 0 ∧ ((even_sample 4 - 1 : Int) : ℚ) ≠ 0) :=
  ⟨by decide, divide_shadow_divisors_nonzero_of_four_le 4 (by decide)⟩

/-! ## C3 -/

/-- A CD_MCOL layer whose stored array sample has 2 elements. -/
def mcolLayer2 : LayerSample := LayerSample.mcol [⟨0, 0, 0, 0⟩, ⟨0, 0, 0, 0⟩]

/-- C3 counterexample: reading the 2-element CD_MCOL layer with
`num_data = 3` makes the per-layer read return
`PTC_READ_SAMPLE_INVALID`, yet `CustomDataReader::read_sample` still
returns `PTC_READ_SAMPLE_EXACT`: the invalid result is not propagated to
its caller. -/
theorem customdata_read_sample_swallows_invalid_cex :
    read_sample_layer mcolLayer2 3 = PTCReadSampleResult.PTC_READ_SAMPLE_INVALID ∧
    CustomDataReader.read_sample [mcolLayer2] 3 = PTCReadSampleResult.PTC_READ_SAMPLE_EXACT ∧
    PTCReadSampleResult.PTC_READ_SAMPLE_INVALID ≠ PTCReadSampleResult.PTC_READ_SAMPLE_EXACT := by
  decide

/-- C3 amended: every per-feature-layer read that finds an array sample
whose element count differs from the requested `num_data` returns the
distinct result `PTC_READ_SAMPLE_INVALID` rather than
`PTC_READ_SAMPLE_EXACT`; however `CustomDataReader::read_sample` discards
the per-layer results and returns `PTC_READ_SAMPLE_EXACT` unconditionally,
so the invalid result is not visible to its caller. -/
theorem customdata_read_sample_invalid_layer_behavior (layer : LayerSample)
    (num_data : Nat) (layers : List LayerSample) (hmem : layer ∈ layers)
    (h : layer_size_mismatch layer num_data = true) :
    read_sample_layer layer num_data = PTCReadSampleResult.PTC_READ_SAMPLE_INVALID ∧
    PTCReadSampleResult.PTC_READ_SAMPLE_INVALID ≠ PTCReadSampleResult.PTC_READ_SAMPLE_EXACT ∧
    CustomDataReader.read_sample layers num_data = PTCReadSampleResult.PTC_READ_SAMPLE_EXACT := by
  refine ⟨?_, by decide, rfl⟩
  unfold read_sample_layer
  rw [h]
  rfl

/-- C3 amended witness: the 2-element CD_MCOL layer read with
`num_data = 3`. -/
theorem customdata_read_sample_invalid_layer_behavior_witness :
    read_sample_layer mcolLayer2 3 = PTCReadSampleResult.PTC_READ_SAMPLE_INVALID ∧
    PTCReadSampleResult.PTC_READ_SAMPLE_INVALID ≠ PTCReadSampleResult.PTC_READ_SAMPLE_EXACT ∧
    CustomDataReader.read_sample [mcolLayer2] 3 = PTCReadSampleResult.PTC_READ_SAMPLE_EXACT :=
  customdata_read_sample_invalid_layer_behavior mcolLayer2 3 [mcolLayer2]
    (by decide) (by decide)

/-! ## C8 -/

/-- C8: `kernel_filter_combine_halves` with `r == 0` is symmetric under
exchanging the half-buffers `a` and `b`: the written mean
`0.5*(a[idx]+b[idx])` and the written variance `0.25*(a[idx]-b[idx])²`
are both unchanged by the swap. -/
theorem combine_halves_swap_symmetric (x y : Int) (mean variance : Option (Int → ℚ))
    (a b : Int → ℚ) (rect : Int4) :
    kernel_filter_combine_halves x y mean variance a b rect 0 =
      kernel_filter_combine_halves x y mean variance b a rect 0 := by
  have h1 : ∀ i : Int, (1/2 : ℚ) * (a i + b i) = (1/2 : ℚ) * (b i + a i) := by
    intro i; ring
  have h2 : ∀ i : Int, (1/4 : ℚ) * (a i - b i) * (a i - b i) =
      (1/4 : ℚ) * (b i - a i) * (b i - a i) := by
    intro i; ring
  unfold kernel_filter_combine_halves
  simp only [if_pos, h1, h2]

/-! ## C9 -/

/-- C9: a call to `kernel_filter_divide_shadow` leaves every element of
the five output arrays other than the one at
`idx = (y-rect.y)*align_up(rect.z-rect.x,4)+(x-rect.x)` unchanged, and
leaves the input tile buffers unchanged. -/
theorem divide_shadow_frame_effect (sample : Int) (tiles : TilesInfo) (x y : Int)
    (unfilteredA unfilteredB sampleVariance sampleVarianceV bufferVariance : Int → ℚ)
    (rect : Int4) (bps bdo : Int) (split : Bool) (j : Int)
    (hj : j ≠ (y - rect.y) * align_up (rect.z - rect.x) 4 + (x - rect.x)) :
    (kernel_filter_divide_shadow sample tiles x y unfilteredA unfilteredB
        sampleVariance sampleVarianceV bufferVariance rect bps bdo split).unfilteredA j =
      unfilteredA j ∧
    (kernel_filter_divide_shadow sample tiles x y unfilteredA unfilteredB
        sampleVariance sampleVarianceV bufferVariance rect bps bdo split).unfilteredB j =
      unfilteredB j ∧
    (kernel_filter_divide_shadow sample tiles x y unfilteredA unfilteredB
        sampleVariance sampleVarianceV bufferVariance rect bps bdo split).sampleVariance j =
      sampleVariance j ∧
    (kernel_filter_divide_shadow sample tiles x y unfilteredA unfilteredB
        sampleVariance sampleVarianceV bufferVariance rect bps bdo split).sampleVarianceV j =
      sampleVarianceV j ∧
    (kernel_filter_divide_shadow sample tiles x y unfilteredA unfilteredB
        sampleVariance sampleVarianceV bufferVariance rect bps bdo split).bufferVariance j =
      bufferVariance j ∧
    (kernel_filter_divide_shadow sample tiles x y unfilteredA unfilteredB
        sampleVariance sampleVarianceV bufferVariance rect bps bdo split).tiles = tiles := by
  have hj' : j ≠ rect_idx rect x y := hj
  unfold kernel_filter_divide_shadow
  exact ⟨Function.update_noteq hj' _ _, Function.update_noteq hj' _ _,
    Function.update_noteq hj' _ _, Function.update_noteq hj' _ _,
    Function.update_noteq hj' _ _, rfl⟩

/-! ## Concrete inputs used by counterexamples and witnesses -/

/-- All-zero rectangle-space array. -/
def zArr : Int → ℚ := fun _ => 0

/-- The single-pixel prefilter rectangle `[0,1) × [0,1)`. -/
def rect1 : Int4 := ⟨0, 0, 1, 1⟩

/-- The `3 × 3`-pixel prefilter rectangle `[0,3) × [0,3)`. -/
def rect3 : Int4 := ⟨0, 0, 3, 3⟩

/-- A concrete tile layout whose tile-0 buffer holds `5` at flat index 19
(shadow record entry 5 for pixel `(0,0)` with `pass_stride = 1`,
`denoising_offset = 0`) and `0` elsewhere. -/
def shadowTilesC4 : TilesInfo :=
  { x := fun _ => 1
    y := fun _ => 1
    offsets := fun _ => 0
    strides := fun _ => 0
    buffers := fun _ i => if i = 19 then 5 else 0 }

/-- A concrete tile layout whose tile-0 buffer holds `10` at flat index 0
and `5` at flat index 1. -/
def featureTiles : TilesInfo :=
  { x := fun _ => 1
    y := fun _ => 1
    offsets := fun _ => 0
    strides := fun _ => 0
    buffers := fun _ i => if i = 0 then 10 else if i = 1 then 5 else 0 }

/-- The per-pixel feature record of `kernel_filter_get_feature`: the
owning tile's buffer read at
`(offset + y*stride + x)*pass_stride + denoising_offset + i`. -/
def feature_record (tiles : TilesInfo) (x y buffer_pass_stride buffer_denoising_offset : Int) :
    Int → ℚ := fun i =>
  tiles.buffers (tile_of tiles x y)
    ((tiles.offsets (tile_of tiles x y) + y * tiles.strides (tile_of tiles x y) + x) *
      buffer_pass_stride + buffer_denoising_offset + i)

/-! ## C1 -/

/-- C1: for every call to `kernel_filter_divide_shadow` (with a
non-negative sample count), the value written at
`idx = (y-rect.y)*align_up(rect.z-rect.x,4)+(x-rect.x)` in each of the
five output arrays equals the spec's formula over the pixel's record at
`base + denoising_offset + 14`, with `oddSample = ⌈sample/2⌉` and
`evenSample = ⌊sample/2⌋`. -/
theorem divide_shadow_matches_spec_formulas (sample : Int) (tiles : TilesInfo)
    (x y : Int) (uA0 uB0 sV0 sVV0 bV0 : Int → ℚ) (rect : Int4) (bps bdo : Int)
    (split : Bool) (hs : 0 ≤ sample) :
    (kernel_filter_divide_shadow sample tiles x y uA0 uB0 sV0 sVV0 bV0 rect bps bdo
        split).unfilteredA (rect_idx rect x y) =
      specUnfilteredA (shadow_record tiles x y bps bdo) ∧
    (kernel_filter_divide_shadow sample tiles x y uA0 uB0 sV0 sVV0 bV0 rect bps bdo
        split).unfilteredB (rect_idx rect x y) =
      specUnfilteredB (shadow_record tiles x y bps bdo) ∧
    (kernel_filter_divide_shadow sample tiles x y uA0 uB0 sV0 sVV0 bV0 rect bps bdo
        split).sampleVariance (rect_idx rect x y) =
      specSampleVariance (shadow_record tiles x y bps bdo) sample split ∧
    (kernel_filter_divide_shadow sample tiles x y uA0 uB0 sV0 sVV0 bV0 rect bps bdo
        split).sampleVarianceV (rect_idx rect x y) =
      specSampleVarianceV (shadow_record tiles x y bps bdo) sample split ∧
    (kernel_filter_divide_shadow sample tiles x y uA0 uB0 sV0 sVV0 bV0 rect bps bdo
        split).bufferVariance (rect_idx rect x y) =
      specBufferVariance (shadow_record tiles x y bps bdo) := by
  have hodd := odd_sample_eq_spec sample hs
  have heven := even_sample_eq_spec sample hs
  simp only [kernel_filter_divide_shadow, specUnfilteredA, specUnfilteredB,
    specSampleVariance, specSampleVarianceV, specBufferVariance, specVarA, specVarB,
    shadow_record, Function.update_same, ← hodd, ← heven, pow_two]
  refine ⟨trivial, trivial, trivial, ?_, ?_⟩
  · push_cast
    ring
  · ring

/-- C1 witness at `sample = 4`, pixel `(0,0)`, the concrete tile layout
`shadowTilesC4` and the single-pixel rectangle. -/
theorem divide_shadow_matches_spec_formulas_witness :
    (0 : Int) ≤ 4 ∧
    ((kernel_filter_divide_shadow 4 shadowTilesC4 0 0 zArr zArr zArr zArr zArr rect1 1 0
        true).unfilteredA (rect_idx rect1 0 0) =
      specUnfilteredA (shadow_record shadowTilesC4 0 0 1 0) ∧
    (kernel_filter_divide_shadow 4 shadowTilesC4 0 0 zArr zArr zArr zArr zArr rect1 1 0
        true).unfilteredB (rect_idx rect1 0 0) =
      specUnfilteredB (shadow_record shadowTilesC4 0 0 1 0) ∧
    (kernel_filter_divide_shadow 4 shadowTilesC4 0 0 zArr zArr zArr zArr zArr rect1 1 0
        true).sampleVariance (rect_idx rect1 0 0) =
      specSampleVariance (shadow_record shadowTilesC4 0 0 1 0) 4 true ∧
    (kernel_filter_divide_shadow 4 shadowTilesC4 0 0 zArr zArr zArr zArr zArr rect1 1 0
        true).sampleVarianceV (rect_idx rect1 0 0) =
      specSampleVarianceV (shadow_record shadowTilesC4 0 0 1 0) 4 true ∧
    (kernel_filter_divide_shadow 4 shadowTilesC4 0 0 zArr zArr zArr zArr zArr rect1 1 0
        true).bufferVariance (rect_idx rect1 0 0) =
      specBufferVariance (shadow_record shadowTilesC4 0 0 1 0)) :=
  ⟨by decide,
   divide_shadow_matches_spec_formulas 4 shadowTilesC4 0 0 zArr zArr zArr zArr zArr
     rect1 1 0 true (by decide)⟩

/-- C9 witness: pixel `(0,0)` of the single-pixel rectangle writes index
0, so index 1 of each output array (and the tile layout) is untouched. -/
theorem divide_shadow_frame_effect_witness :
    (kernel_filter_divide_shadow 4 shadowTilesC4 0 0 zArr zArr zArr zArr zArr rect1 1 0
        true).unfilteredA 1 = zArr 1 ∧
    (kernel_filter_divide_shadow 4 shadowTilesC4 0 0 zArr zArr zArr zArr zArr rect1 1 0
        true).unfilteredB 1 = zArr 1 ∧
    (kernel_filter_divide_shadow 4 shadowTilesC4 0 0 zArr zArr zArr zArr zArr rect1 1 0
        true).sampleVariance 1 = zArr 1 ∧
    (kernel_filter_divide_shadow 4 shadowTilesC4 0 0 zArr zArr zArr zArr zArr rect1 1 0
        true).sampleVarianceV 1 = zArr 1 ∧
    (kernel_filter_divide_shadow 4 shadowTilesC4 0 0 zArr zArr zArr zArr zArr rect1 1 0
        true).bufferVariance 1 = zArr 1 ∧
    (kernel_filter_divide_shadow 4 shadowTilesC4 0 0 zArr zArr zArr zArr zArr rect1 1 0
        true).tiles = shadowTilesC4 :=
  divide_shadow_frame_effect 4 shadowTilesC4 0 0 zArr zArr zArr zArr zArr rect1 1 0
    true 1 (by decide)

/-! ## C4 -/

/-- C4 counterexample: the record held by `shadowTilesC4` for pixel
`(0,0)` has non-negative second moments (`record[2] = 0`,
`record[5] = 5`), yet with the split flag on and the concrete sample
count 1 the written `sampleVariance` is negative (`evenSample = 0` makes
its divisor `-1`). -/
theorem divide_shadow_sample_variance_negative_cex :
    0 ≤ shadow_record shadowTilesC4 0 0 1 0 2 ∧
    0 ≤ shadow_record shadowTilesC4 0 0 1 0 5 ∧
    ¬ (0 ≤ (kernel_filter_divide_shadow 1 shadowTilesC4 0 0 zArr zArr zArr zArr zArr
        rect1 1 0 true).sampleVariance (rect_idx rect1 0 0)) := by
  have hidx : rect_idx rect1 0 0 = 0 := by decide
  have ho : odd_sample 1 = 1 := by decide
  have he : even_sample 1 = 0 := by decide
  refine ⟨by norm_num [shadow_record, shadowTilesC4, tile_of],
          by norm_num [shadow_record, shadowTilesC4, tile_of], ?_⟩
  have hv : (kernel_filter_divide_shadow 1 shadowTilesC4 0 0 zArr zArr zArr zArr zArr
      rect1 1 0 true).sampleVariance (rect_idx rect1 0 0) = -(5/2) := by
    simp only [kernel_filter_divide_shadow, hidx, ho, he, shadowTilesC4, tile_of,
      Function.update_same]
    norm_num
  rw [hv]
  norm_num

/-- C4 amended: for every input record with non-negative second-moment
entries and every sample count `sample ≥ 2`, the `sampleVariance` and
`sampleVarianceV` written by `kernel_filter_divide_shadow` with the
split-variance flag on are both `≥ 0` (exact arithmetic; at `sample = 1`
the claim fails as the counterexample shows). -/
theorem divide_shadow_variances_nonneg_of_two_le (sample : Int) (tiles : TilesInfo)
    (x y : Int) (uA0 uB0 sV0 sVV0 bV0 : Int → ℚ) (rect : Int4) (bps bdo : Int)
    (h2 : 0 ≤ shadow_record tiles x y bps bdo 2)
    (h5 : 0 ≤ shadow_record tiles x y bps bdo 5)
    (hs : 2 ≤ sample) :
    0 ≤ (kernel_filter_divide_shadow sample tiles x y uA0 uB0 sV0 sVV0 bV0 rect bps bdo
        true).sampleVariance (rect_idx rect x y) ∧
    0 ≤ (kernel_filter_divide_shadow sample tiles x y uA0 uB0 sV0 sVV0 bV0 rect bps bdo
        true).sampleVarianceV (rect_idx rect x y) := by
  have hodd : 1 ≤ odd_sample sample := by
    unfold odd_sample
    rw [Int.tdiv_eq_ediv (by omega) (by norm_num)]
    omega
  have heven : 1 ≤ even_sample sample := by
    unfold even_sample
    rw [Int.tdiv_eq_ediv (by omega) (by norm_num)]
    omega
  simp only [kernel_filter_divide_shadow, Function.update_same, if_pos]
  constructor
  · apply div_nonneg
    · apply mul_nonneg (by norm_num)
      apply add_nonneg
      · exact div_nonneg (le_max_left 0 _) (by exact_mod_cast (by omega : (0:Int) ≤ odd_sample sample - 1))
      · exact div_nonneg (le_max_left 0 _) (by exact_mod_cast (by omega : (0:Int) ≤ even_sample sample - 1))
    · exact_mod_cast (by omega : (0:Int) ≤ sample)
  · apply div_nonneg
    · have h : ∀ q : ℚ, (1/2 : ℚ) * q * q = (1/2 : ℚ) * (q * q) := fun q => by ring
      rw [h]
      exact mul_nonneg (by norm_num) (mul_self_nonneg _)
    · exact_mod_cast mul_self_nonneg sample

/-- C4 amended witness at `sample = 4` with the concrete record of
`shadowTilesC4`. -/
theorem divide_shadow_variances_nonneg_of_two_le_witness :
    0 ≤ (kernel_filter_divide_shadow 4 shadowTilesC4 0 0 zArr zArr zArr zArr zArr
        rect1 1 0 true).sampleVariance (rect_idx rect1 0 0) ∧
    0 ≤ (kernel_filter_divide_shadow 4 shadowTilesC4 0 0 zArr zArr zArr zArr zArr
        rect1 1 0 true).sampleVarianceV (rect_idx rect1 0 0) :=
  divide_shadow_variances_nonneg_of_two_le 4 shadowTilesC4 0 0 zArr zArr zArr zArr zArr
    rect1 1 0
    (by norm_num [shadow_record, shadowTilesC4, tile_of])
    (by norm_num [shadow_record, shadowTilesC4, tile_of])
    (by decide)

/-! ## C5 -/

/-- C5: `kernel_filter_get_feature` writes
`mean[idx] = record[m_offset]/sample` and
`variance[idx] = max(0, (record[v_offset] - mean[idx]²·sample)/(sample·(sample-1)))`
with the split flag on, else `record[v_offset]/(sample·(sample-1))`; in
particular for `sample = 2`, `record[m_offset] = 10`,
`record[v_offset] = 5` and the split flag off it writes `mean[idx] = 5`
and `variance[idx] = 5/2`. -/
theorem get_feature_correct (sample : Int) (tiles : TilesInfo) (m_offset v_offset x y : Int)
    (mean variance : Int → ℚ) (rect : Int4) (bps bdo : Int) (split : Bool) :
    ((kernel_filter_get_feature sample tiles m_offset v_offset x y mean variance rect
        bps bdo split).mean (rect_idx rect x y) =
      feature_record tiles x y bps bdo m_offset / (sample : ℚ) ∧
    (kernel_filter_get_feature sample tiles m_offset v_offset x y mean variance rect
        bps bdo split).variance (rect_idx rect x y) =
      (if split then
        max 0 ((feature_record tiles x y bps bdo v_offset -
          ((kernel_filter_get_feature sample tiles m_offset v_offset x y mean variance
            rect bps bdo split).mean (rect_idx rect x y)) ^ 2 * (sample : ℚ)) /
          ((sample * (sample - 1) : Int) : ℚ))
      else
        feature_record tiles x y bps bdo v_offset / ((sample * (sample - 1) : Int) : ℚ))) ∧
    ((kernel_filter_get_feature 2 featureTiles 0 1 0 0 zArr zArr rect1 1 0 false).mean
        (rect_idx rect1 0 0) = 5 ∧
    (kernel_filter_get_feature 2 featureTiles 0 1 0 0 zArr zArr rect1 1 0 false).variance
        (rect_idx rect1 0 0) = 5/2) := by
  constructor
  · simp only [kernel_filter_get_feature, feature_record, Function.update_same, pow_two]
    exact ⟨trivial, trivial⟩
  · have hidx : rect_idx rect1 0 0 = 0 := by decide
    simp only [kernel_filter_get_feature, hidx, featureTiles, tile_of,
      Function.update_same]
    norm_num

/-! ## Window helper lemmas -/

lemma intRange_length (lo hi : Int) : (intRange lo hi).length = (hi - lo).toNat := by
  rw [intRange, List.length_map, List.length_range]

lemma intRange_single (lo : Int) : intRange lo (lo + 1) = [lo] := by
  have h : lo + 1 - lo = 1 := by omega
  rw [intRange, h]
  have h1 : List.range (Int.toNat 1) = [0] := rfl
  rw [h1]
  simp

lemma combineGather_length (a b : Int → ℚ) (rect : Int4) (x y r : Int) :
    (combineGather a b rect x y r).length =
      (min (y + r + 1) rect.w - max (y - r) rect.y).toNat *
        (min (x + r + 1) rect.z - max (x - r) rect.x).toNat := by
  unfold combineGather
  rw [List.length_flatMap]
  simp only [Function.comp_def, List.length_map, intRange_length]
  rw [List.map_const', List.sum_const_nat, intRange_length]

lemma combineGather_length_pos (a b : Int → ℚ) (rect : Int4) (x y r : Int)
    (hr : 0 ≤ r) (hx1 : rect.x ≤ x) (hx2 : x < rect.z)
    (hy1 : rect.y ≤ y) (hy2 : y < rect.w) :
    0 < (combineGather a b rect x y r).length := by
  rw [combineGather_length]
  apply Nat.mul_pos <;> omega

lemma insertionSort_eq_multiset_sort (l : List ℚ) :
    List.insertionSort (· ≤ ·) l = Multiset.sort (· ≤ ·) (l : Multiset ℚ) := by
  refine List.eq_of_perm_of_sorted ?_ (List.sorted_insertionSort _ l)
    (Multiset.sort_sorted _ _)
  refine (List.perm_insertionSort _ l).trans ?_
  exact Multiset.coe_eq_coe.mp (Multiset.sort_eq (· ≤ ·) (l : Multiset ℚ)).symm

/-! ## C10 -/

/-- C10: for a pixel inside the rectangle and radius `r ≥ 1`, the clipped
gather window of `kernel_filter_combine_halves` holds at least the center
pixel and at most `(2r+1)²` pixels, the selection rank `(7*n)/8` is
strictly below the element count `n`, and for `r ≤ 2` the count fits the
25-element `values` buffer. -/
theorem combine_halves_window_bounds (a b : Int → ℚ) (rect : Int4) (x y r : Int)
    (hr : 1 ≤ r) (hx1 : rect.x ≤ x) (hx2 : x < rect.z)
    (hy1 : rect.y ≤ y) (hy2 : y < rect.w) :
    1 ≤ (combineGather a b rect x y r).length ∧
    ((combineGather a b rect x y r).length : Int) ≤ (2*r + 1)^2 ∧
    rank_index (combineGather a b rect x y r).length <
      (combineGather a b rect x y r).length ∧
    (r ≤ 2 → (combineGather a b rect x y r).length ≤ 25) := by
  have hpos := combineGather_length_pos a b rect x y r (by omega) hx1 hx2 hy1 hy2
  have hlen := combineGather_length a b rect x y r
  set ay := (min (y + r + 1) rect.w - max (y - r) rect.y).toNat with hay
  set ax := (min (x + r + 1) rect.z - max (x - r) rect.x).toNat with hax
  have hay2 : (ay : Int) ≤ 2*r + 1 := by omega
  have hax2 : (ax : Int) ≤ 2*r + 1 := by omega
  refine ⟨by omega, ?_, ?_, ?_⟩
  · rw [hlen]
    push_cast
    calc ((ay : Int)) * (ax : Int) ≤ (2*r + 1) * (2*r + 1) :=
          mul_le_mul hay2 hax2 (by positivity) (by omega)
      _ = (2*r + 1)^2 := by ring
  · unfold rank_index
    omega
  · intro hr2
    have hay5 : ay ≤ 5 := by omega
    have hax5 : ax ≤ 5 := by omega
    rw [hlen]
    calc ay * ax ≤ 5 * 5 := Nat.mul_le_mul hay5 hax5
      _ = 25 := rfl

/-- C10 witness: pixel `(1,1)` of the `3×3` rectangle with `r = 1`. -/
theorem combine_halves_window_bounds_witness :
    1 ≤ (combineGather zArr zArr rect3 1 1 1).length ∧
    ((combineGather zArr zArr rect3 1 1 1).length : Int) ≤ (2*1 + 1)^2 ∧
    rank_index (combineGather zArr zArr rect3 1 1 1).length <
      (combineGather zArr zArr rect3 1 1 1).length ∧
    ((1 : Int) ≤ 2 → (combineGather zArr zArr rect3 1 1 1).length ≤ 25) :=
  combine_halves_window_bounds zArr zArr rect3 1 1 1 (by decide) (by decide)
    (by decide) (by decide) (by decide)

/-! ## C6 -/

/-- C6: in the windowed mode (`r ≥ 1`), for a pixel inside the rectangle
the written variance is the element at ascending rank
`floor(7*count/8)` of the sorted multiset of `0.25*(a[p]-b[p])²` over the
clipped window; the rank evaluates to 0, 7, 7, 21 at counts 1, 8, 9, 25,
is always strictly below the count, and for a window of 8 values the
selected element is the maximum. -/
theorem combine_halves_rank_selection (x y : Int) (mean : Option (Int → ℚ))
    (v : Int → ℚ) (a b : Int → ℚ) (rect : Int4) (r : Int)
    (hr : 1 ≤ r) (hx1 : rect.x ≤ x) (hx2 : x < rect.z)
    (hy1 : rect.y ≤ y) (hy2 : y < rect.w) :
    (kernel_filter_combine_halves x y mean (some v) a b rect r).variance =
      some (Function.update v (rect_idx rect x y)
        ((Multiset.sort (· ≤ ·) ((combineGather a b rect x y r : List ℚ) : Multiset ℚ)).getD
          (rank_index (combineGather a b rect x y r).length) 0)) ∧
    rank_index (combineGather a b rect x y r).length <
      (combineGather a b rect x y r).length ∧
    (rank_index 1 = 0 ∧ rank_index 8 = 7 ∧ rank_index 9 = 7 ∧ rank_index 25 = 21) ∧
    ((combineGather a b rect x y r).length = 8 →
      ∀ q ∈ combineGather a b rect x y r,
        q ≤ (Multiset.sort (· ≤ ·) ((combineGather a b rect x y r : List ℚ) : Multiset ℚ)).getD
          (rank_index (combineGather a b rect x y r).length) 0) := by
  have hpos := combineGather_length_pos a b rect x y r (by omega) hx1 hx2 hy1 hy2
  have hr0 : ¬ r = 0 := by omega
  refine ⟨?_, ?_, ⟨rfl, rfl, rfl, rfl⟩, ?_⟩
  · simp only [kernel_filter_combine_halves, Option.map_some', if_neg hr0,
      insertionSort_eq_multiset_sort]
  · unfold rank_index
    omega
  · intro h8 q hq
    have hLlen : (Multiset.sort (· ≤ ·)
        ((combineGather a b rect x y r : List ℚ) : Multiset ℚ)).length = 8 := by
      rw [Multiset.length_sort, Multiset.coe_card, h8]
    have hsorted := Multiset.sort_sorted (α := ℚ) (· ≤ ·)
      ((combineGather a b rect x y r : List ℚ) : Multiset ℚ)
    have hmem : q ∈ Multiset.sort (· ≤ ·)
        ((combineGather a b rect x y r : List ℚ) : Multiset ℚ) := by
      rw [Multiset.mem_sort, Multiset.mem_coe]
      exact hq
    obtain ⟨i, hi, hqi⟩ := List.getElem_of_mem hmem
    have h78 : rank_index (combineGather a b rect x y r).length = 7 := by
      rw [h8]
      rfl
    rw [h78, List.getD_eq_getElem _ 0 (by omega : 7 < (Multiset.sort (· ≤ ·)
      ((combineGather a b rect x y r : List ℚ) : Multiset ℚ)).length)]
    rw [← hqi]
    have hle := hsorted.rel_get_of_le (a := ⟨i, hi⟩)
      (b := ⟨7, by omega⟩) (Fin.mk_le_mk.mpr (by omega))
    simpa [List.get_eq_getElem] using hle

/-- C6 witness: pixel `(1,1)` of the `3×3` rectangle with `r = 1` (a
9-element window). -/
theorem combine_halves_rank_selection_witness :
    ((kernel_filter_combine_halves 1 1 none (some zArr) zArr zArr rect3 1).variance =
      some (Function.update zArr (rect_idx rect3 1 1)
        ((Multiset.sort (· ≤ ·) ((combineGather zArr zArr rect3 1 1 1 : List ℚ) : Multiset ℚ)).getD
          (rank_index (combineGather zArr zArr rect3 1 1 1).length) 0)) ∧
    rank_index (combineGather zArr zArr rect3 1 1 1).length <
      (combineGather zArr zArr rect3 1 1 1).length ∧
    (rank_index 1 = 0 ∧ rank_index 8 = 7 ∧ rank_index 9 = 7 ∧ rank_index 25 = 21) ∧
    ((combineGather zArr zArr rect3 1 1 1).length = 8 →
      ∀ q ∈ combineGather zArr zArr rect3 1 1 1,
        q ≤ (Multiset.sort (· ≤ ·) ((combineGather zArr zArr rect3 1 1 1 : List ℚ) : Multiset ℚ)).getD
          (rank_index (combineGather zArr zArr rect3 1 1 1).length) 0)) :=
  combine_halves_rank_selection 1 1 none zArr zArr zArr rect3 1 (by decide)
    (by decide) (by decide) (by decide) (by decide)

/-! ## C7 -/

/-- C7: when the clipped window of the windowed mode (`r ≥ 1`) contains
exactly one pixel, `kernel_filter_combine_halves` produces exactly the
`r == 0` pointwise result `0.25*(a[idx]-b[idx])²`. -/
theorem combine_halves_single_window_eq_pointwise (x y : Int)
    (mean variance : Option (Int → ℚ)) (a b : Int → ℚ) (rect : Int4) (r : Int)
    (hr : 1 ≤ r) (hx1 : rect.x ≤ x) (hx2 : x < rect.z)
    (hy1 : rect.y ≤ y) (hy2 : y < rect.w)
    (hxw : min (x + r + 1) rect.z = max (x - r) rect.x + 1)
    (hyw : min (y + r + 1) rect.w = max (y - r) rect.y + 1) :
    kernel_filter_combine_halves x y mean variance a b rect r =
      kernel_filter_combine_halves x y mean variance a b rect 0 := by
  have hx0 : max (x - r) rect.x = x := by omega
  have hy0 : max (y - r) rect.y = y := by omega
  have hr0 : ¬ r = 0 := by omega
  have hgather : combineGather a b rect x y r =
      [(1/4 : ℚ) * (a (rect_idx rect x y) - b (rect_idx rect x y)) *
        (a (rect_idx rect x y) - b (rect_idx rect x y))] := by
    unfold combineGather
    rw [hxw, hyw, hx0, hy0, intRange_single, intRange_single]
    simp
  dsimp only [kernel_filter_combine_halves]
  congr 1
  congr 1
  funext v
  rw [if_neg hr0, hgather]
  simp [List.insertionSort, List.orderedInsert, rank_index]

/-- C7 witness: pixel `(0,0)` of the single-pixel rectangle with `r = 1`
(window clipped to exactly one element). -/
theorem combine_halves_single_window_eq_pointwise_witness :
    kernel_filter_combine_halves 0 0 (some zArr) (some zArr) zArr zArr rect1 1 =
      kernel_filter_combine_halves 0 0 (some zArr) (some zArr) zArr zArr rect1 0 :=
  combine_halves_single_window_eq_pointwise 0 0 (some zArr) (some zArr) zArr zArr
    rect1 1 (by decide) (by decide) (by decide) (by decide) (by decide) (by decide)
    (by decide)
